import Mathlib

/-!
# Verification of the salty-tiler raster value-transform and color-mapping pipeline

Shallow embedding of `src/algorithms.py` and `src/services/colors.py`.

Modelling conventions:
* A single-band masked raster (`rio_tiler` `ImageData.array`, a numpy masked
  array) is a `Buf P`: a data function `P → ℚ` plus a boolean mask `P → Bool`
  (`true` = invalid/NoData), over an abstract finite pixel-index type `P`.
  Float samples are modelled as exact rationals (no NaN in the buffer model).
* Transcendental float routines (`numpy.log10`, `math.log10`, `numpy.sqrt`,
  `numpy.degrees(numpy.arctan2 ...)`) are abstract function parameters: the
  claims under study depend only on structural properties of the pipeline
  (mask plumbing, clamping, interpolation bookkeeping), not on the numeric
  value of a logarithm.  Where a float domain violation matters
  (`numpy.ma.log10` of a non-positive value) the result type `FV` carries
  explicit non-finite values.
* Python `int(x)` is truncation toward zero (`pyInt`); `numpy` `astype(uint8)`
  wraps modulo 256 (`u8cast`).
* `numpy.ma.is_masked(a)` is true iff some element of `a` is masked
  (`anyMasked`).
* `ImageData.mask` (external `rio_tiler` accessor, out of scope of src/) is
  modelled from the spec, §3 MaskedBuffer: the boolean validity mask of the
  band, `true` = invalid.
-/

/-- A float value as produced by a float math routine: finite (exact rational
model) or one of the non-finite IEEE values. -/
inductive FV where
  | fin (q : ℚ)
  | nan
  | pinf
  | ninf
  deriving DecidableEq, Repr

/-- Finiteness predicate on modelled float values. -/
def FV.isFinite : FV → Bool
  | .fin _ => true
  | _ => false

/-- Python `int(x)` applied to a float/rational: truncation toward zero. -/
def pyInt (q : ℚ) : ℤ := if 0 ≤ q then ⌊q⌋ else ⌈q⌉

/-- Round-to-nearest (the spec text's `round(...)`; ties are irrelevant for
the inputs where it is used). -/
def roundNearest (q : ℚ) : ℤ := ⌊q + 1/2⌋

/-- The `numpy` cast of a float array to `uint8`: truncate, then wrap mod 256. -/
def u8cast (q : ℚ) : ℤ := (pyInt q) % 256

/-- Single-band masked raster buffer: `rio_tiler ImageData` with one band,
over pixel-index type `P`.  `mask p = true` means invalid/NoData. -/
structure Buf (P : Type) where
  data : P → ℚ
  mask : P → Bool

/-- A 3-band RGB output buffer produced by the RGB-synthesizing transforms.
The single 2-D nodata mask is broadcast to all three bands
(`numpy.broadcast_to(nodata_mask, rgb.shape)`), so one mask function
represents every band's mask. -/
structure RGBBuf (P : Type) where
  rgb : P → ℤ × ℤ × ℤ
  mask : P → Bool

/-- Embedding of `numpy.ma.is_masked(a)`: true iff at least one element of `a` is masked. -/
def anyMasked {P : Type} [Fintype P] (b : Buf P) : Bool :=
  decide (∃ p, b.mask p = true)

namespace Log10

/-- Embedding of `Log10.__call__` (src/algorithms.py lines 28-41):
`transformed_array = numpy.ma.log10(numpy.ma.clip(img.array, self.eps, None))`.
`numpy.ma.clip(x, eps, None)` is `max x eps` and preserves the mask;
`numpy.ma.log10` applies the float `log10` (abstract parameter `log10F`,
returning a possibly non-finite float `FV`) and additionally masks every
position whose argument is outside the domain `(0, ∞)`. -/
def call {P : Type} (log10F : ℚ → FV) (eps : ℚ) (b : Buf P) :
    (P → FV) × (P → Bool) :=
  (fun p => log10F (max (b.data p) eps),
   fun p => b.mask p || decide (max (b.data p) eps ≤ 0))

end Log10

namespace OceanMask

/-- Embedding of `OceanMask.__call__` (src/algorithms.py lines 418-447):
`existing_mask = img.array.mask if numpy.ma.is_masked(img.array) else False`;
`temp_range_mask = (img.array < min_temp) | (img.array > max_temp)` (computed
on the underlying data); `combined_mask = existing_mask | temp_range_mask`;
the returned masked array keeps the data untouched and uses `combined_mask`. -/
def call {P : Type} [Fintype P] (minTemp maxTemp : ℚ) (b : Buf P) : Buf P :=
  let existingMask : P → Bool := fun p => if anyMasked b then b.mask p else false
  let tempRangeMask : P → Bool :=
    fun p => decide (b.data p < minTemp) || decide (b.data p > maxTemp)
  { data := b.data
    mask := fun p => existingMask p || tempRangeMask p }

end OceanMask

namespace Log10Chlorophyll

/-- Embedding of `Log10Chlorophyll.__call__` (src/algorithms.py lines 61-76):
`clamped = numpy.ma.clip(img.array, eps, max_value)` then
`numpy.ma.log10(clamped)` with the same domain-masking as `Log10`. -/
def call {P : Type} (log10F : ℚ → FV) (eps maxValue : ℚ) (b : Buf P) :
    (P → FV) × (P → Bool) :=
  let clamped : P → ℚ := fun p => min (max (b.data p) eps) maxValue
  (fun p => log10F (clamped p),
   fun p => b.mask p || decide (clamped p ≤ 0))

end Log10Chlorophyll

namespace SqrtChlorophyll

/-- Embedding of `SqrtChlorophyll.__call__` (src/algorithms.py lines 95-110):
`clamped = numpy.ma.clip(img.array, 0.0, max_value)` then
`numpy.ma.sqrt(clamped)`; `numpy.ma.sqrt` masks arguments `< 0` (its float
value is the abstract parameter `sqrtF`). -/
def call {P : Type} (sqrtF : ℚ → ℚ) (maxValue : ℚ) (b : Buf P) : Buf P :=
  let clamped : P → ℚ := fun p => min (max (b.data p) 0) maxValue
  { data := fun p => sqrtF (clamped p)
    mask := fun p => b.mask p || decide (clamped p < 0) }

end SqrtChlorophyll

namespace GammaChlorophyll

/-- Embedding of `GammaChlorophyll.__call__` (src/algorithms.py lines 130-145):
`clamped = numpy.ma.clip(img.array, 0.0, max_value)` then
`numpy.ma.power(clamped, gamma)`; `numpy.ma.power` masks positions whose
float result is invalid: a negative base with the fractional default
exponent, or base `0` with a negative exponent (the float value itself is
the abstract parameter `powF`). -/
def call {P : Type} (powF : ℚ → ℚ → ℚ) (maxValue gamma : ℚ) (b : Buf P) : Buf P :=
  let clamped : P → ℚ := fun p => min (max (b.data p) 0) maxValue
  { data := fun p => powF (clamped p) gamma
    mask := fun p => b.mask p ||
      decide (clamped p < 0 ∨ (clamped p = 0 ∧ gamma < 0)) }

end GammaChlorophyll

namespace LinearChlorophyll

/-- Embedding of `LinearChlorophyll.__call__` (src/algorithms.py lines 163-176):
`numpy.ma.clip(img.array, 0.0, max_value)` only; mask untouched. -/
def call {P : Type} (maxValue : ℚ) (b : Buf P) : Buf P :=
  { data := fun p => min (max (b.data p) 0) maxValue
    mask := b.mask }

end LinearChlorophyll

/-- C5: for every input value `x` and every `eps > 0`, the `Log10` transform
(`out = log10(clamp(x, eps, +inf))`) never produces NaN or +∞ or -∞ at a
valid (unmasked) output position.  `hlog` is the IEEE fact that `log10` of a
positive finite float is finite; the content of the theorem is that the
clamp guarantees the argument handed to `log10` is `≥ eps > 0` and that the
domain mask of `numpy.ma.log10` adds nothing. -/
theorem C5_log10_no_nan_inf {P : Type} (log10F : ℚ → FV) (eps : ℚ)
    (heps : 0 < eps) (hlog : ∀ q : ℚ, 0 < q → (log10F q).isFinite = true)
    (b : Buf P) (p : P) (_hvalid : (Log10.call log10F eps b).2 p = false) :
    ((Log10.call log10F eps b).1 p).isFinite = true := by
  have harg : 0 < max (b.data p) eps := lt_of_lt_of_le heps (le_max_right _ _)
  exact hlog _ harg

/-- Witness for C5 at a concrete input: one-pixel buffer with value 5,
`eps = 1`, `log10F` a concrete finite-valued float model. -/
theorem C5_log10_no_nan_inf_witness :
    (0 : ℚ) < 1 ∧
    ((Log10.call (fun _ => FV.fin 0) 1 ⟨fun _ => 5, fun _ => false⟩).1
      (0 : Fin 1)).isFinite = true :=
  ⟨by norm_num,
   C5_log10_no_nan_inf (fun _ => FV.fin 0) 1 (by norm_num)
     (fun _ _ => rfl) ⟨fun _ => 5, fun _ => false⟩ 0 rfl⟩

/-- If no element is masked, every mask bit is false. -/
theorem anyMasked_false {P : Type} [Fintype P] (b : Buf P)
    (h : anyMasked b = false) (p : P) : b.mask p = false := by
  by_contra hc
  have : b.mask p = true := by
    cases hmp : b.mask p with
    | false => exact absurd hmp hc
    | true => rfl
  have : anyMasked b = true := by
    unfold anyMasked
    exact decide_eq_true ⟨p, this⟩
  rw [h] at this
  exact Bool.false_ne_true this

/-- C6 helper: the OceanMask output mask in closed form. -/
theorem oceanMask_mask_eq {P : Type} [Fintype P] (minTemp maxTemp : ℚ)
    (b : Buf P) (p : P) :
    (OceanMask.call minTemp maxTemp b).mask p =
      (b.mask p || (decide (b.data p < minTemp) || decide (b.data p > maxTemp))) := by
  unfold OceanMask.call
  simp only
  cases ham : anyMasked b with
  | true => simp
  | false => simp [anyMasked_false b ham p]

namespace ChlorophyllRangeMapper

/-- Class attribute `max_value` (src/algorithms.py line 193). -/
def maxValue : ℚ := 2

/-- Class attribute `breakpoints` (src/algorithms.py line 196):
`[0.0, 0.05, 0.10, 0.30, 1.00, 2.00]` as exact rationals. -/
def breakpoints : List ℚ := [0, 1/20, 1/10, 3/10, 1, 2]

/-- Class attribute `colors_rgb` (src/algorithms.py lines 197-204). -/
def colorsRgb : List (ℤ × ℤ × ℤ) :=
  [(139, 58, 139), (26, 26, 75), (13, 91, 184),
   (30, 126, 232), (241, 196, 15), (211, 84, 0)]

/-- The `nodata_mask` computed in `__call__` (src/algorithms.py lines 219-236):
`data.mask` when `numpy.ma.is_masked(data)` else `numpy.isnan(data)` (all
false in the rational model), then OR-ed with `img.mask[0]` (the band's
boolean validity mask, modelled from the spec MaskedBuffer). -/
def nodataMask {P : Type} [Fintype P] (b : Buf P) : P → Bool :=
  fun p => (if anyMasked b then b.mask p else false) || b.mask p

/-- Embedding of `numpy.ma.clip(data, 0.0, self.max_value)` (src/algorithms.py line 239). -/
def clamped {P : Type} (b : Buf P) : P → ℚ :=
  fun p => min (max (b.data p) 0) maxValue

/-- One iteration of the painting loop (src/algorithms.py lines 242-255):
pixels with `breakpoints[i] <= clamped < breakpoints[i+1]` and not NoData are
overwritten with `colors_rgb[i]` on all three channels. -/
def paintStep {P : Type} [Fintype P] (b : Buf P)
    (cur : P → ℤ × ℤ × ℤ) (i : ℕ) : P → ℤ × ℤ × ℤ :=
  fun p =>
    if decide (breakpoints.getD i 0 ≤ clamped b p) &&
       decide (clamped b p < breakpoints.getD (i + 1) 0) &&
       !(nodataMask b p)
    then colorsRgb.getD i (0, 0, 0)
    else cur p

/-- The result of the painting loop (src/algorithms.py lines 242-255). -/
def loopRgb {P : Type} [Fintype P] (b : Buf P) : P → ℤ × ℤ × ℤ :=
  (List.range (breakpoints.length - 1)).foldl (paintStep b) (fun _ => (0, 0, 0))

/-- Embedding of `ChlorophyllRangeMapper.__call__` (src/algorithms.py lines 211-281):
zero-initialized RGB, painting loop over the `len(breakpoints) - 1`
intervals, then the `>= breakpoints[-1]` override (lines 257-264), then the
nodata mask broadcast to the three bands (lines 266-271). -/
def call {P : Type} [Fintype P] (b : Buf P) : RGBBuf P :=
  { rgb := fun p =>
      if decide (breakpoints.getLastD 0 ≤ clamped b p) && !(nodataMask b p)
      then colorsRgb.getLastD (0, 0, 0)
      else loopRgb b p
    mask := nodataMask b }

/-- An unmasked pixel has `nodata_mask` false. -/
theorem nodataMask_of_unmasked {P : Type} [Fintype P] (b : Buf P) (p : P)
    (hm : b.mask p = false) : nodataMask b p = false := by
  unfold nodataMask
  cases anyMasked b <;> simp [hm]

/-- Closed form of the painted color at an unmasked pixel: the loop plus the
final override amount to a first-match-from-the-top cascade of the interval
tests on the clamped value. -/
theorem call_rgb_unmasked {P : Type} [Fintype P] (b : Buf P) (p : P)
    (hm : b.mask p = false) :
    (call b).rgb p =
      (if 2 ≤ clamped b p then (211, 84, 0)
       else if 1 ≤ clamped b p ∧ clamped b p < 2 then (241, 196, 15)
       else if 3/10 ≤ clamped b p ∧ clamped b p < 1 then (30, 126, 232)
       else if 1/10 ≤ clamped b p ∧ clamped b p < 3/10 then (13, 91, 184)
       else if 1/20 ≤ clamped b p ∧ clamped b p < 1/10 then (26, 26, 75)
       else if 0 ≤ clamped b p ∧ clamped b p < 1/20 then (139, 58, 139)
       else (0, 0, 0)) := by
  have hnd := nodataMask_of_unmasked b p hm
  have hrange : List.range (breakpoints.length - 1) = [0, 1, 2, 3, 4] := by decide
  have hlast : breakpoints.getLastD 0 = 2 := rfl
  have hg0 : breakpoints.getD 0 0 = 0 := rfl
  have hg1 : breakpoints.getD 1 0 = 1/20 := rfl
  have hg2 : breakpoints.getD 2 0 = 1/10 := rfl
  have hg3 : breakpoints.getD 3 0 = 3/10 := rfl
  have hg4 : breakpoints.getD 4 0 = 1 := rfl
  have hg5 : breakpoints.getD 5 0 = 2 := rfl
  have hc0 : colorsRgb.getD 0 (0, 0, 0) = (139, 58, 139) := rfl
  have hc1 : colorsRgb.getD 1 (0, 0, 0) = (26, 26, 75) := rfl
  have hc2 : colorsRgb.getD 2 (0, 0, 0) = (13, 91, 184) := rfl
  have hc3 : colorsRgb.getD 3 (0, 0, 0) = (30, 126, 232) := rfl
  have hc4 : colorsRgb.getD 4 (0, 0, 0) = (241, 196, 15) := rfl
  have hclast : colorsRgb.getLastD (0, 0, 0) = (211, 84, 0) := rfl
  show (if decide (breakpoints.getLastD 0 ≤ clamped b p) && !(nodataMask b p)
        then colorsRgb.getLastD (0, 0, 0) else loopRgb b p) = _
  unfold loopRgb paintStep
  rw [hrange]
  simp only [List.foldl_cons, List.foldl_nil]
  simp only [hnd, hlast, hg0, hg1, hg2, hg3, hg4, hg5,
    hc0, hc1, hc2, hc3, hc4, hclast, Bool.not_false, Bool.and_true,
    Bool.and_eq_true, decide_eq_true_eq]

/-- The clamped value lies in `[0, 2]`. -/
theorem clamped_mem {P : Type} (b : Buf P) (p : P) :
    0 ≤ clamped b p ∧ clamped b p ≤ 2 := by
  unfold clamped maxValue
  exact ⟨le_min (le_max_right _ _) (by norm_num), min_le_right _ _⟩

end ChlorophyllRangeMapper

/-- C8: `ChlorophyllRangeMapper` interval membership is half-open
lower-inclusive.  For every unmasked pixel: if the clamped value lies in
`[breakpoints[i], breakpoints[i+1])` the pixel is painted `colors_rgb[i]`
(so a value equal to an interior breakpoint takes the color of the interval
starting there, and a value strictly below it takes the preceding interval's
color); a clamped value at or above the final breakpoint takes the last
color.  In particular `0.05` maps to the second interval's color
`(26, 26, 75)` and `0.049999` to the first interval's `(139, 58, 139)`. -/
theorem C8_rangeMapper_half_open {P : Type} [Fintype P] (b : Buf P) (p : P)
    (hm : b.mask p = false) :
    (∀ i : ℕ, i + 1 < ChlorophyllRangeMapper.breakpoints.length →
      ChlorophyllRangeMapper.breakpoints.getD i 0 ≤ ChlorophyllRangeMapper.clamped b p →
      ChlorophyllRangeMapper.clamped b p < ChlorophyllRangeMapper.breakpoints.getD (i + 1) 0 →
      (ChlorophyllRangeMapper.call b).rgb p = ChlorophyllRangeMapper.colorsRgb.getD i (0, 0, 0)) ∧
    (ChlorophyllRangeMapper.breakpoints.getLastD 0 ≤ ChlorophyllRangeMapper.clamped b p →
      (ChlorophyllRangeMapper.call b).rgb p = ChlorophyllRangeMapper.colorsRgb.getLastD (0, 0, 0)) ∧
    (b.data p = 1/20 → (ChlorophyllRangeMapper.call b).rgb p = (26, 26, 75)) ∧
    (b.data p = 49999/1000000 → (ChlorophyllRangeMapper.call b).rgb p = (139, 58, 139)) := by
  obtain ⟨hc0, hc2⟩ := ChlorophyllRangeMapper.clamped_mem b p
  rw [ChlorophyllRangeMapper.call_rgb_unmasked b p hm]
  set c := ChlorophyllRangeMapper.clamped b p with hc
  refine ⟨?_, ?_, ?_, ?_⟩
  · intro i hi hlo hhi
    have hi5 : i < 5 := by
      simp only [ChlorophyllRangeMapper.breakpoints, List.length_cons,
        List.length_nil] at hi
      omega
    interval_cases i
    · have h1 : (0 : ℚ) ≤ c := hlo
      have h2 : c < 1/20 := hhi
      rw [if_neg (show ¬(2 ≤ c) by intro h; linarith),
          if_neg (show ¬(1 ≤ c ∧ c < 2) by rintro ⟨h, -⟩; linarith),
          if_neg (show ¬(3/10 ≤ c ∧ c < 1) by rintro ⟨h, -⟩; linarith),
          if_neg (show ¬(1/10 ≤ c ∧ c < 3/10) by rintro ⟨h, -⟩; linarith),
          if_neg (show ¬(1/20 ≤ c ∧ c < 1/10) by rintro ⟨h, -⟩; linarith),
          if_pos ⟨h1, h2⟩]
      rfl
    · have h1 : (1 : ℚ)/20 ≤ c := hlo
      have h2 : c < 1/10 := hhi
      rw [if_neg (show ¬(2 ≤ c) by intro h; linarith),
          if_neg (show ¬(1 ≤ c ∧ c < 2) by rintro ⟨h, -⟩; linarith),
          if_neg (show ¬(3/10 ≤ c ∧ c < 1) by rintro ⟨h, -⟩; linarith),
          if_neg (show ¬(1/10 ≤ c ∧ c < 3/10) by rintro ⟨h, -⟩; linarith),
          if_pos ⟨h1, h2⟩]
      rfl
    · have h1 : (1 : ℚ)/10 ≤ c := hlo
      have h2 : c < 3/10 := hhi
      rw [if_neg (show ¬(2 ≤ c) by intro h; linarith),
          if_neg (show ¬(1 ≤ c ∧ c < 2) by rintro ⟨h, -⟩; linarith),
          if_neg (show ¬(3/10 ≤ c ∧ c < 1) by rintro ⟨h, -⟩; linarith),
          if_pos ⟨h1, h2⟩]
      rfl
    · have h1 : (3 : ℚ)/10 ≤ c := hlo
      have h2 : c < 1 := hhi
      rw [if_neg (show ¬(2 ≤ c) by intro h; linarith),
          if_neg (show ¬(1 ≤ c ∧ c < 2) by rintro ⟨h, -⟩; linarith),
          if_pos ⟨h1, h2⟩]
      rfl
    · have h1 : (1 : ℚ) ≤ c := hlo
      have h2 : c < 2 := hhi
      rw [if_neg (show ¬(2 ≤ c) by intro h; linarith),
          if_pos ⟨h1, h2⟩]
      rfl
  · intro hge
    have h2 : (2 : ℚ) ≤ c := by
      simpa [ChlorophyllRangeMapper.breakpoints] using hge
    rw [if_pos h2]
    rfl
  · intro hv
    have hcv : c = 1/20 := by
      rw [hc]
      unfold ChlorophyllRangeMapper.clamped
      rw [hv]
      norm_num [ChlorophyllRangeMapper.maxValue]
    rw [hcv]
    norm_num
  · intro hv
    have hcv : c = 49999/1000000 := by
      rw [hc]
      unfold ChlorophyllRangeMapper.clamped
      rw [hv]
      norm_num [ChlorophyllRangeMapper.maxValue]
    rw [hcv]
    norm_num

/-- Witness for C8 at concrete inputs: a one-pixel unmasked buffer valued
exactly `0.05` is painted the second interval's color. -/
theorem C8_rangeMapper_half_open_witness :
    ((⟨fun _ => 1/20, fun _ => false⟩ : Buf (Fin 1)).mask 0 = false) ∧
    (ChlorophyllRangeMapper.call (⟨fun _ => 1/20, fun _ => false⟩ : Buf (Fin 1))).rgb 0
      = (26, 26, 75) :=
  ⟨rfl,
   (C8_rangeMapper_half_open (⟨fun _ => 1/20, fun _ => false⟩ : Buf (Fin 1)) 0
     rfl).2.2.1 rfl⟩

/-- C6: the RangeMask transform (`OceanMask`) leaves every data sample
unchanged — only the mask differs — and the output mask equals the input mask
OR-ed with the out-of-range predicate `x < min_temp ∨ x > max_temp`; in
particular no previously set mask bit is ever cleared. -/
theorem C6_oceanMask_adds_only_mask {P : Type} [Fintype P]
    (minTemp maxTemp : ℚ) (b : Buf P) :
    (∀ p, (OceanMask.call minTemp maxTemp b).data p = b.data p) ∧
    (∀ p, (OceanMask.call minTemp maxTemp b).mask p =
      (b.mask p || (decide (b.data p < minTemp) || decide (b.data p > maxTemp)))) ∧
    (∀ p, b.mask p = true → (OceanMask.call minTemp maxTemp b).mask p = true) := by
  refine ⟨fun p => rfl, fun p => oceanMask_mask_eq minTemp maxTemp b p, fun p hp => ?_⟩
  rw [oceanMask_mask_eq minTemp maxTemp b p, hp]
  simp

/-- C3 counterexample: the claim says a transform configured with
`max <= min` (or `eps <= 0` on a log transform) is rejected before any pixel
is processed.  In the code there is no validation at all: `OceanMask` with
`min_temp = 10, max_temp = 5` runs to completion on a one-pixel buffer — the
per-pixel range predicate is evaluated (it masks the pixel valued `7`) and
the data is carried through; likewise `Log10` with `eps = -1` applies the
per-pixel `log10(clip(x, -1, None))` computation (here `log10F` is
instantiated with a concrete float model to evaluate the call). -/
theorem C3_counterexample :
    (OceanMask.call 10 5 (⟨fun _ => 7, fun _ => false⟩ : Buf (Fin 1))).mask 0 = true ∧
    (OceanMask.call 10 5 (⟨fun _ => 7, fun _ => false⟩ : Buf (Fin 1))).data 0 = 7 ∧
    (Log10.call (fun q => FV.fin q) (-1)
      (⟨fun _ => 100, fun _ => false⟩ : Buf (Fin 1))).1 0 = FV.fin 100 ∧
    (Log10.call (fun q => FV.fin q) (-1)
      (⟨fun _ => -5, fun _ => false⟩ : Buf (Fin 1))).2 0 = true := by
  refine ⟨?_, rfl, ?_, ?_⟩
  · rw [oceanMask_mask_eq]
    norm_num
  · show FV.fin (max (100 : ℚ) (-1)) = FV.fin 100
    norm_num
  · show (false || decide (max (-5 : ℚ) (-1) ≤ 0)) = true
    norm_num

/-- C3 amended: no configuration validation exists.  A transform configured
with `max_temp < min_temp` (`OceanMask`) or `eps ≤ 0` (`Log10`) is invoked
normally and its per-pixel computation runs: `OceanMask` with an inverted
range masks every pixel while carrying the data through, and `Log10` with
`eps ≤ 0` reaches the per-pixel `log10` whose domain mask fires on every
non-positive clipped value. -/
theorem C3_no_config_validation :
    (∀ (P : Type) [Fintype P] (minT maxT : ℚ) (b : Buf P), maxT < minT →
      ∀ p, (OceanMask.call minT maxT b).mask p = true ∧
        (OceanMask.call minT maxT b).data p = b.data p) ∧
    (∀ (P : Type) (log10F : ℚ → FV) (eps : ℚ) (b : Buf P) (p : P),
      eps ≤ 0 → b.data p ≤ 0 →
      (Log10.call log10F eps b).2 p = true ∧
      (Log10.call log10F eps b).1 p = log10F (max (b.data p) eps)) := by
  constructor
  · intro P _ minT maxT b hlt p
    refine ⟨?_, rfl⟩
    rw [oceanMask_mask_eq]
    rcases lt_or_le (b.data p) minT with h | h
    · simp [h]
    · have : maxT < b.data p := lt_of_lt_of_le hlt h
      simp [this]
  · intro P log10F eps b p heps hdata
    refine ⟨?_, rfl⟩
    show (b.mask p || decide (max (b.data p) eps ≤ 0)) = true
    have : max (b.data p) eps ≤ 0 := max_le hdata heps
    simp [this]

/-- Witness for C3 amended at concrete inputs. -/
theorem C3_no_config_validation_witness :
    ((5 : ℚ) < 10 ∧ (-1 : ℚ) ≤ 0 ∧ (-5 : ℚ) ≤ 0) ∧
    (OceanMask.call 10 5 (⟨fun _ => 7, fun _ => true⟩ : Buf (Fin 1))).mask 0 = true ∧
    (Log10.call (fun q => FV.fin q) (-1)
      (⟨fun _ => -5, fun _ => true⟩ : Buf (Fin 1))).2 0 = true :=
  ⟨⟨by norm_num, by norm_num, by norm_num⟩,
   (C3_no_config_validation.1 (Fin 1) 10 5
     (⟨fun _ => 7, fun _ => true⟩ : Buf (Fin 1)) (by norm_num) 0).1,
   (C3_no_config_validation.2 (Fin 1) (fun q => FV.fin q) (-1)
     (⟨fun _ => -5, fun _ => true⟩ : Buf (Fin 1)) 0 (by norm_num) (by norm_num)).1⟩

/-- All three channels of an RGB triple are integers in `[0, 255]`. -/
def rgbInRange (c : ℤ × ℤ × ℤ) : Prop :=
  0 ≤ c.1 ∧ c.1 ≤ 255 ∧ 0 ≤ c.2.1 ∧ c.2.1 ≤ 255 ∧ 0 ≤ c.2.2 ∧ c.2.2 ≤ 255

instance (c : ℤ × ℤ × ℤ) : Decidable (rgbInRange c) := by
  unfold rgbInRange
  infer_instance

/-- Applying `pyInt` to a rational in `[0, 255]` stays in `[0, 255]`. -/
theorem pyInt_bounds (q : ℚ) (h0 : 0 ≤ q) (h255 : q ≤ 255) :
    0 ≤ pyInt q ∧ pyInt q ≤ 255 := by
  unfold pyInt
  rw [if_pos h0]
  constructor
  · exact Int.le_floor.mpr (by exact_mod_cast h0)
  · have h := Int.floor_le_floor h255
    rwa [show ⌊(255 : ℚ)⌋ = 255 by norm_num] at h

/-- A truncated linear blend of two channel values in `[0, 255]` with blend
factor `t ∈ [0, 1]` stays in `[0, 255]`. -/
theorem chanBound (a b : ℤ) (t : ℚ) (ha0 : 0 ≤ a) (ha1 : a ≤ 255)
    (hb0 : 0 ≤ b) (hb1 : b ≤ 255) (ht0 : 0 ≤ t) (ht1 : t ≤ 1) :
    0 ≤ pyInt ((a : ℚ) + t * ((b : ℚ) - (a : ℚ))) ∧
    pyInt ((a : ℚ) + t * ((b : ℚ) - (a : ℚ))) ≤ 255 := by
  have ha0' : (0 : ℚ) ≤ (a : ℚ) := by exact_mod_cast ha0
  have ha1' : (a : ℚ) ≤ 255 := by exact_mod_cast ha1
  have hb0' : (0 : ℚ) ≤ (b : ℚ) := by exact_mod_cast hb0
  have hb1' : (b : ℚ) ≤ 255 := by exact_mod_cast hb1
  apply pyInt_bounds
  · nlinarith [mul_nonneg (sub_nonneg.mpr ht1) ha0', mul_nonneg ht0 hb0']
  · nlinarith [mul_nonneg (sub_nonneg.mpr ht1) (sub_nonneg.mpr ha1'),
      mul_nonneg ht0 (sub_nonneg.mpr hb1')]

namespace ChlorophyllSmoothMapper

/-- Class attribute `max_value` (src/algorithms.py line 293). -/
def maxValue : ℚ := 2

/-- Class attribute `conc_points` (src/algorithms.py line 296):
`[0.0, 0.02, 0.05, 0.10, 0.20, 0.35, 0.50, 0.75, 1.00, 1.50, 2.00]`. -/
def concPoints : List ℚ :=
  [0, 1/50, 1/20, 1/10, 1/5, 7/20, 1/2, 3/4, 1, 3/2, 2]

/-- Class attribute `colors_rgb` (src/algorithms.py lines 297-309). -/
def colorsRgb : List (ℤ × ℤ × ℤ) :=
  [(139, 58, 139), (26, 26, 75), (11, 61, 145), (13, 91, 184),
   (20, 70, 244), (30, 126, 232), (0, 179, 179), (63, 209, 199),
   (241, 196, 15), (230, 184, 0), (211, 84, 0)]

/-- Python float `<=` on possibly-NaN operands: any comparison involving NaN
(`none`) is false. -/
def fle : Option ℚ → Option ℚ → Bool
  | some a, some b => decide (a ≤ b)
  | _, _ => false

/-- One linear interpolation between two stops (src/algorithms.py lines
328-334): `t = (value - p_i) / (p_{i+1} - p_i)` and per channel
`int(c_i + t * (c_{i+1} - c_i))`. -/
def interpSeg (p1 p2 : ℚ) (c1 c2 : ℤ × ℤ × ℤ) (q : ℚ) : ℤ × ℤ × ℤ :=
  let t : ℚ := (q - p1) / (p2 - p1)
  (pyInt ((c1.1 : ℚ) + t * ((c2.1 : ℚ) - (c1.1 : ℚ))),
   pyInt ((c1.2.1 : ℚ) + t * ((c2.2.1 : ℚ) - (c1.2.1 : ℚ))),
   pyInt ((c1.2.2 : ℚ) + t * ((c2.2.2 : ℚ) - (c1.2.2 : ℚ))))

/-- The bracketing loop of `_interpolate_color` (src/algorithms.py lines
325-334): scan adjacent `(conc_points[i], conc_points[i+1])` pairs and
return on the first one with `conc_points[i] <= value <= conc_points[i+1]`
(both comparisons false when `value` is NaN). -/
def interpLoop : List ℚ → List (ℤ × ℤ × ℤ) → Option ℚ → Option (ℤ × ℤ × ℤ)
  | p1 :: p2 :: ps, c1 :: c2 :: cs, v =>
    if fle (some p1) v && fle v (some p2) then
      some (interpSeg p1 p2 c1 c2 (v.getD 0))
    else
      interpLoop (p2 :: ps) (c2 :: cs) v
  | _, _, _ => none

/-- Embedding of `ChlorophyllSmoothMapper._interpolate_color` (src/algorithms.py lines
316-336): below-first and above-last guards, the bracketing loop, and the
final `return self.colors_rgb[-1]` fallback reached when every comparison
fails (in particular for NaN).  `none` models a NaN input value. -/
def interpolate_color (v : Option ℚ) : ℤ × ℤ × ℤ :=
  if fle v (some (concPoints.headD 0)) then colorsRgb.headD (0, 0, 0)
  else if fle (some (concPoints.getLastD 0)) v then colorsRgb.getLastD (0, 0, 0)
  else
    match interpLoop concPoints colorsRgb v with
    | some c => c
    | none => colorsRgb.getLastD (0, 0, 0)

/-- Evaluating `interpSeg` between two in-range colors at a bracketed value is in range. -/
theorem interpSeg_inRange (p1 p2 : ℚ) (c1 c2 : ℤ × ℤ × ℤ) (q : ℚ)
    (hq1 : p1 ≤ q) (hq2 : q ≤ p2) (hp : p1 < p2)
    (h1 : rgbInRange c1) (h2 : rgbInRange c2) :
    rgbInRange (interpSeg p1 p2 c1 c2 q) := by
  obtain ⟨a0, a1, a2, a3, a4, a5⟩ := h1
  obtain ⟨b0, b1, b2, b3, b4, b5⟩ := h2
  have ht0 : 0 ≤ (q - p1) / (p2 - p1) := div_nonneg (by linarith) (by linarith)
  have ht1 : (q - p1) / (p2 - p1) ≤ 1 := by
    rw [div_le_one (by linarith)]
    linarith
  unfold interpSeg rgbInRange
  refine ⟨?_, ?_, ?_, ?_, ?_, ?_⟩
  · exact (chanBound _ _ _ a0 a1 b0 b1 ht0 ht1).1
  · exact (chanBound _ _ _ a0 a1 b0 b1 ht0 ht1).2
  · exact (chanBound _ _ _ a2 a3 b2 b3 ht0 ht1).1
  · exact (chanBound _ _ _ a2 a3 b2 b3 ht0 ht1).2
  · exact (chanBound _ _ _ a4 a5 b4 b5 ht0 ht1).1
  · exact (chanBound _ _ _ a4 a5 b4 b5 ht0 ht1).2

/-- Whatever `interpLoop` returns over strictly ascending points and
in-range colors is in range. -/
theorem interpLoop_inRange (ps : List ℚ) :
    ∀ (cs : List (ℤ × ℤ × ℤ)) (v : Option ℚ) (c : ℤ × ℤ × ℤ),
      List.Chain' (· < ·) ps → (∀ x ∈ cs, rgbInRange x) →
      interpLoop ps cs v = some c → rgbInRange c := by
  induction ps with
  | nil => intro cs v c _ _ h; simp [interpLoop] at h
  | cons p1 ps ih =>
    intro cs v c hch hcs hloop
    rcases ps with _ | ⟨p2, ps'⟩
    · simp [interpLoop] at hloop
    · rcases cs with _ | ⟨c1, cs⟩
      · simp [interpLoop] at hloop
      rcases cs with _ | ⟨c2, cs'⟩
      · simp [interpLoop] at hloop
      rw [interpLoop] at hloop
      split_ifs at hloop with hguard
      · rcases v with _ | q
        · simp [fle] at hguard
        · simp only [fle, Bool.and_eq_true, decide_eq_true_eq] at hguard
          have hc : c = interpSeg p1 p2 c1 c2 q := by
            simpa using hloop.symm
          rw [hc]
          exact interpSeg_inRange p1 p2 c1 c2 q hguard.1 hguard.2
            (List.chain'_cons.mp hch).1
            (hcs c1 (by simp)) (hcs c2 (by simp))
      · exact ih (c2 :: cs') v c (List.chain'_cons.mp hch).2
          (fun x hx => hcs x (List.mem_cons_of_mem c1 hx)) hloop

/-- C10: `_interpolate_color` is total over the configured ascending
`conc_points`: every float input (including NaN, modelled as `none`) yields
an RGB triple with each channel an integer in `[0, 255]`; values at or below
the first point return the first color, values at or above the last point
return the last color, and a NaN input falls through every comparison to the
final-color fallback (which equals the last color) instead of raising. -/
theorem C10_interpolate_color_total :
    (∀ v : Option ℚ, rgbInRange (interpolate_color v)) ∧
    (∀ q : ℚ, q ≤ 0 → interpolate_color (some q) = (139, 58, 139)) ∧
    (∀ q : ℚ, 2 ≤ q → interpolate_color (some q) = (211, 84, 0)) ∧
    interpolate_color none = (211, 84, 0) := by
  have hnone : interpolate_color none = (211, 84, 0) := rfl
  have hlow : ∀ q : ℚ, q ≤ 0 → interpolate_color (some q) = (139, 58, 139) := by
    intro q hq
    simp [interpolate_color, fle, concPoints, colorsRgb, hq]
  have hhigh : ∀ q : ℚ, 2 ≤ q → interpolate_color (some q) = (211, 84, 0) := by
    intro q hq
    have h0 : ¬(q ≤ 0) := by linarith
    simp [interpolate_color, fle, concPoints, colorsRgb, h0, hq]
  refine ⟨?_, hlow, hhigh, hnone⟩
  intro v
  rcases v with _ | q
  · rw [hnone]; decide
  by_cases h0 : q ≤ 0
  · rw [hlow q h0]; decide
  by_cases h2 : 2 ≤ q
  · rw [hhigh q h2]; decide
  have h0' : 0 < q := not_le.mp h0
  have h2' : q < 2 := not_le.mp h2
  have hg1 : ¬(fle (some q) (some (concPoints.headD 0)) = true) := by
    simp [fle, concPoints]
    exact h0'
  have hg2 : ¬(fle (some (concPoints.getLastD 0)) (some q) = true) := by
    simp [fle, concPoints]
    exact h2'
  unfold interpolate_color
  rw [if_neg hg1, if_neg hg2]
  cases hloop : interpLoop concPoints colorsRgb (some q) with
  | none => decide
  | some c =>
    have hchain : List.Chain' (· < ·) concPoints := by
      simp [concPoints, List.chain'_cons]
      norm_num
    have hcols : ∀ x ∈ colorsRgb, rgbInRange x := by decide
    exact interpLoop_inRange concPoints colorsRgb (some q) c hchain hcols hloop

/-- Witness for C10 at concrete inputs. -/
theorem C10_interpolate_color_total_witness :
    ((-1 : ℚ) ≤ 0 ∧ (2 : ℚ) ≤ 3) ∧
    interpolate_color (some (-1)) = (139, 58, 139) ∧
    interpolate_color (some 3) = (211, 84, 0) ∧
    rgbInRange (interpolate_color none) :=
  ⟨⟨by norm_num, by norm_num⟩,
   C10_interpolate_color_total.2.1 (-1) (by norm_num),
   C10_interpolate_color_total.2.2.1 3 (by norm_num),
   C10_interpolate_color_total.1 none⟩

/-- The `nodata_mask` of `__call__` (src/algorithms.py lines 346-362),
computed exactly like `ChlorophyllRangeMapper`'s: `data.mask` when
`numpy.ma.is_masked(data)` else `numpy.isnan(data)` (all false in the
rational model), OR-ed with `img.mask[0]`. -/
def nodataMask {P : Type} [Fintype P] (b : Buf P) : P → Bool :=
  fun p => (if anyMasked b then b.mask p else false) || b.mask p

/-- Embedding of `ChlorophyllSmoothMapper.__call__` (src/algorithms.py lines 338-394):
zero-initialized RGB; the pixel loop (lines 368-377) skips NoData pixels,
re-checks the element mask of the clamped array, and otherwise paints
`_interpolate_color(float(data_clamped[i, j]))`; the nodata mask is
broadcast to the three output bands (lines 379-384). -/
def call {P : Type} [Fintype P] (b : Buf P) : RGBBuf P :=
  { rgb := fun p =>
      if nodataMask b p then (0, 0, 0)
      else if b.mask p then (0, 0, 0)
      else interpolate_color (some (min (max (b.data p) 0) maxValue))
    mask := nodataMask b }

end ChlorophyllSmoothMapper

namespace ChlorophyllLog10RGB

/-- Class attribute `min_value` (src/algorithms.py line 467): `0.01`. -/
def minValue : ℚ := 1/100

/-- Class attribute `max_value` (src/algorithms.py line 468): `8.0`. -/
def maxValue : ℚ := 8

/-- Class attribute `log_min` (src/algorithms.py line 471): `-2.0`. -/
def logMin : ℚ := -2

/-- Class attribute `log_max` (src/algorithms.py line 472):
`0.9030899869919435`. -/
def logMax : ℚ := 9030899869919435/10000000000000000

/-- Class attribute `color_stops` (src/algorithms.py lines 476-496): the 19
`(chlorophyll value, hex color)` stops, hex decoded to RGB via
`_hex_to_rgb` (lines 503-510). -/
def colorStops : List (ℚ × (ℤ × ℤ × ℤ)) :=
  [(1/100, (224, 64, 224)),   -- 0.01  #E040E0
   (1/50, (153, 102, 204)),   -- 0.02  #9966CC
   (3/100, (102, 51, 204)),   -- 0.03  #6633CC
   (1/20, (13, 31, 109)),     -- 0.05  #0D1F6D
   (7/100, (30, 58, 138)),    -- 0.07  #1E3A8A
   (1/10, (30, 64, 175)),     -- 0.10  #1E40AF
   (1/5, (33, 150, 243)),     -- 0.20  #2196F3
   (3/10, (59, 130, 246)),    -- 0.30  #3B82F6
   (1/2, (0, 188, 212)),      -- 0.50  #00BCD4
   (7/10, (0, 172, 193)),     -- 0.70  #00ACC1
   (1, (0, 137, 123)),        -- 1.00  #00897B
   (3/2, (38, 166, 154)),     -- 1.50  #26A69A
   (2, (76, 175, 80)),        -- 2.00  #4CAF50
   (3, (102, 187, 106)),      -- 3.00  #66BB6A
   (4, (156, 204, 101)),      -- 4.00  #9CCC65
   (5, (192, 202, 51)),       -- 5.00  #C0CA33
   (6, (253, 216, 53)),       -- 6.00  #FDD835
   (7, (255, 179, 0)),        -- 7.00  #FFB300
   (8, (245, 124, 0))]        -- 8.00  #F57C00

/-- Embedding of `numpy.interp` over an ascending breakpoint list, one `(xp, fp)` pair
per entry: constant extrapolation below the first and above the last
breakpoint, linear interpolation on the bracketing segment otherwise. -/
def npInterpGo : (ℚ × ℚ) → List (ℚ × ℚ) → ℚ → ℚ
  | (_, y0), [], _ => y0
  | (x0, y0), (x1, y1) :: rest, x =>
    if x ≤ x1 then y0 + (y1 - y0) * (x - x0) / (x1 - x0)
    else npInterpGo (x1, y1) rest x

/-- Embedding of `numpy.interp(x, xp, fp)` with the `(xp, fp)` pairs zipped. -/
def npInterp : List (ℚ × ℚ) → ℚ → ℚ
  | [], _ => 0
  | (x0, y0) :: rest, x =>
    if x < x0 then y0
    else npInterpGo (x0, y0) rest x

/-- The `nodata_mask` of `__call__` (src/algorithms.py lines 516-520):
`data.mask.copy()` when `numpy.ma.is_masked(data)` else
`numpy.isnan(data)` (all false in the rational model).  Unlike the two
mappers above, no `img.mask` term is OR-ed in. -/
def nodataMask {P : Type} [Fintype P] (b : Buf P) : P → Bool :=
  fun p => if anyMasked b then b.mask p else false

/-- Embedding of `ChlorophyllLog10RGB.__call__` (src/algorithms.py lines 512-576):
clamp the raw data into `[min_value, max_value]` (line 523), take `log10`
(line 526, abstract float parameter `log10q`), normalize into `[0, 1]` by
the configured log range (lines 529-530), map every color stop to its own
normalized log position (lines 532-549), interpolate each channel with
`numpy.interp` (lines 551-554), cast to `uint8` (lines 556-561), and
broadcast the nodata mask to the three bands (lines 563-566).  No
out-of-range masking is performed anywhere: out-of-range values are clamped
and painted. -/
def call {P : Type} [Fintype P] (log10q : ℚ → ℚ) (b : Buf P) : RGBBuf P :=
  let clamped : P → ℚ := fun p => min (max (b.data p) minValue) maxValue
  let logRange : ℚ := logMax - logMin
  let normalized : P → ℚ := fun p => (log10q (clamped p) - logMin) / logRange
  let logPositions : List ℚ := colorStops.map (fun s => (log10q s.1 - logMin) / logRange)
  let rVals : List ℚ := colorStops.map (fun s => (s.2.1 : ℚ))
  let gVals : List ℚ := colorStops.map (fun s => (s.2.2.1 : ℚ))
  let bVals : List ℚ := colorStops.map (fun s => (s.2.2.2 : ℚ))
  { rgb := fun p =>
      (u8cast (npInterp (logPositions.zip rVals) (normalized p)),
       u8cast (npInterp (logPositions.zip gVals) (normalized p)),
       u8cast (npInterp (logPositions.zip bVals) (normalized p)))
    mask := nodataMask b }

end ChlorophyllLog10RGB

/-- C1 counterexample: the claim says the output mask of
`ChlorophyllLog10RGB` equals the input mask OR-ed with the out-of-range
predicate.  On a one-pixel unmasked buffer valued `0.005 < min_value = 0.01`
the claimed mask is `true`, but the transform clamps the value and paints
it: the actual output mask at that pixel is `false`.  (`log10q` is
instantiated with a concrete function; the output mask does not depend on
it.) -/
theorem C1_counterexample :
    (ChlorophyllLog10RGB.call (fun _ => 0)
      (⟨fun _ => 1/200, fun _ => false⟩ : Buf (Fin 1))).mask 0 = false ∧
    ((⟨fun _ => 1/200, fun _ => false⟩ : Buf (Fin 1)).mask 0 ||
      (decide ((1 : ℚ)/200 < ChlorophyllLog10RGB.minValue) ||
       decide ((1 : ℚ)/200 > ChlorophyllLog10RGB.maxValue))) = true := by
  constructor
  · show ChlorophyllLog10RGB.nodataMask
      (⟨fun _ => 1/200, fun _ => false⟩ : Buf (Fin 1)) 0 = false
    unfold ChlorophyllLog10RGB.nodataMask
    simp [anyMasked]
  · norm_num [ChlorophyllLog10RGB.minValue]

/-- C1 amended: the output mask of `ChlorophyllLog10RGB` equals the
original nodata mask (the input mask; `numpy.isnan` positions when the
input is unmasked, which the rational model has none of) broadcast to the
three RGB bands, for every `log10` model: out-of-range values are clamped
into `[min_value, max_value]` and colored, never masked. -/
theorem C1_log10rgb_mask_is_input_mask {P : Type} [Fintype P]
    (log10q : ℚ → ℚ) (b : Buf P) (p : P) :
    (ChlorophyllLog10RGB.call log10q b).mask p = b.mask p := by
  show ChlorophyllLog10RGB.nodataMask b p = b.mask p
  unfold ChlorophyllLog10RGB.nodataMask
  cases ham : anyMasked b with
  | true => rfl
  | false => simp [anyMasked_false b ham p]

/-- Two-dimensional masked raster buffer (one band), indexed by row and
column, for the spatial gradient operator. -/
structure Buf2 (h w : ℕ) where
  data : Fin h → Fin w → ℚ
  mask : Fin h → Fin w → Bool

/-- Embedding of `numpy.ma.is_masked` on a 2-D band. -/
def anyMasked2 {h w : ℕ} (b : Buf2 h w) : Bool :=
  decide (∃ i j, b.mask i j = true)

namespace MixedLayerDepthGradient

/-- The `nodata_mask` of `__call__` (src/algorithms.py lines 614-619):
`data.mask.copy()` when masked, else `numpy.isnan` (all false in the
rational model). -/
def nodataMask2 {h w : ℕ} (b : Buf2 h w) : Fin h → Fin w → Bool :=
  fun i j => if anyMasked2 b then b.mask i j else false

/-- Embedding of `data_filled = numpy.where(nodata_mask, 0.0, data_array)`
(src/algorithms.py line 623). -/
def dataFilled {h w : ℕ} (b : Buf2 h w) : Fin h → Fin w → ℚ :=
  fun i j => if nodataMask2 b i j then 0 else b.data i j

/-- Bounds-guarded access into a 2-D band (out-of-range reads never occur
on the index sets actually used). -/
def at2 {h w : ℕ} (f : Fin h → Fin w → ℚ) (i j : ℕ) : ℚ :=
  if hi : i < h then (if hj : j < w then f ⟨i, hi⟩ ⟨j, hj⟩ else 0) else 0

/-- Embedding of `numpy.gradient` along axis 0 (rows): one-sided differences at the two
edges, central differences in the interior. -/
def gradAxis0 {h w : ℕ} (f : Fin h → Fin w → ℚ) : Fin h → Fin w → ℚ :=
  fun i j =>
    if i.val = 0 then at2 f 1 j.val - at2 f 0 j.val
    else if i.val = h - 1 then at2 f (h - 1) j.val - at2 f (h - 2) j.val
    else (at2 f (i.val + 1) j.val - at2 f (i.val - 1) j.val) / 2

/-- Embedding of `numpy.gradient` along axis 1 (columns). -/
def gradAxis1 {h w : ℕ} (f : Fin h → Fin w → ℚ) : Fin h → Fin w → ℚ :=
  fun i j =>
    if j.val = 0 then at2 f i.val 1 - at2 f i.val 0
    else if j.val = w - 1 then at2 f i.val (w - 1) - at2 f i.val (w - 2)
    else (at2 f i.val (j.val + 1) - at2 f i.val (j.val - 1)) / 2

/-- Output of the gradient transform: one band (magnitude) or two bands
(magnitude, direction), sharing the nodata mask. -/
structure GradOut (h w : ℕ) where
  bands : List (Fin h → Fin w → ℚ)
  mask : Fin h → Fin w → Bool

/-- Embedding of `MixedLayerDepthGradient.__call__` (src/algorithms.py lines 609-667).
The masked positions are zero-filled for the finite differences (line 623).
The `method == "sobel"` branch (lines 626-630) references `ndimage`, which
is never imported in src/algorithms.py (its imports are lines 8-10:
`numpy`, `rio_tiler.models`, `titiler.core.algorithm.base`), so reaching it
raises `NameError`; this is modelled as an `Except.error`.  The `numpy`
branch uses `numpy.gradient` (which raises unless both axes have length at
least 2), takes `sqrt(gx^2 + gy^2)` (abstract float `sqrtF`), optionally
computes the direction band `degrees(atan2(gy, gx))` normalized into
`[0, 360)` (lines 642-651, abstract float `atan2degF`), and re-masks the
result with the nodata mask (lines 639, 647). -/
def call {h w : ℕ} (sqrtF : ℚ → ℚ) (atan2degF : ℚ → ℚ → ℚ)
    (method : String) (outputDirection : Bool) (b : Buf2 h w) :
    Except String (GradOut h w) :=
  if method = "sobel" then
    .error "NameError: name ndimage is not defined"
  else
    if 2 ≤ h ∧ 2 ≤ w then
      let gy := gradAxis0 (dataFilled b)
      let gx := gradAxis1 (dataFilled b)
      let magnitude : Fin h → Fin w → ℚ :=
        fun i j => sqrtF (gx i j ^ 2 + gy i j ^ 2)
      if outputDirection then
        let dir : Fin h → Fin w → ℚ := fun i j =>
          let d := atan2degF (gy i j) (gx i j)
          if d < 0 then d + 360 else d
        .ok ⟨[magnitude, dir], nodataMask2 b⟩
      else
        .ok ⟨[magnitude], nodataMask2 b⟩
    else
      .error "ValueError: Shape of array too small to calculate a numerical gradient"

end MixedLayerDepthGradient

/-- Both gradient axes vanish on a constant field. -/
theorem gradAxis_const_zero {h w : ℕ} (c : ℚ) (hh : 2 ≤ h) (hw : 2 ≤ w)
    (i : Fin h) (j : Fin w) :
    MixedLayerDepthGradient.gradAxis0 (fun _ _ => c) i j = 0 ∧
    MixedLayerDepthGradient.gradAxis1 (fun _ _ => c) i j = 0 := by
  have hat : ∀ a bcol : ℕ, a < h → bcol < w →
      @MixedLayerDepthGradient.at2 h w (fun _ _ => c) a bcol = c := by
    intro a bcol ha hb
    unfold MixedLayerDepthGradient.at2
    rw [dif_pos ha, dif_pos hb]
  constructor
  · unfold MixedLayerDepthGradient.gradAxis0
    split_ifs with h1 h2
    · rw [hat 1 j.val (by omega) j.isLt, hat 0 j.val (by omega) j.isLt]
      ring
    · rw [hat (h - 1) j.val (by omega) j.isLt, hat (h - 2) j.val (by omega) j.isLt]
      ring
    · have hi1 : i.val + 1 < h := by
        have := i.isLt
        omega
      rw [hat (i.val + 1) j.val hi1 j.isLt, hat (i.val - 1) j.val (by omega) j.isLt]
      ring
  · unfold MixedLayerDepthGradient.gradAxis1
    split_ifs with h1 h2
    · rw [hat i.val 1 i.isLt (by omega), hat i.val 0 i.isLt (by omega)]
      ring
    · rw [hat i.val (w - 1) i.isLt (by omega), hat i.val (w - 2) i.isLt (by omega)]
      ring
    · have hj1 : j.val + 1 < w := by
        have := j.isLt
        omega
      rw [hat i.val (j.val + 1) i.isLt hj1, hat i.val (j.val - 1) i.isLt (by omega)]
      ring

/-- C2: on a constant-valued fully unmasked field the gradient magnitude is
zero everywhere for the central-difference method (`method="numpy"`), but
invoking the transform with `method="sobel"` (the class default) does not
return a buffer: `ndimage` is referenced without ever being imported in
src/algorithms.py, so the call raises `NameError` instead.  The code
contradicts its own docstring ("Uses Sobel operator (default) for better
edge detection"). -/
theorem C2_gradient_flat_field (sqrtF : ℚ → ℚ) (atan2degF : ℚ → ℚ → ℚ)
    (hsq : sqrtF 0 = 0) (c : ℚ) (h w : ℕ) (hh : 2 ≤ h) (hw : 2 ≤ w) :
    (MixedLayerDepthGradient.call sqrtF atan2degF "sobel" false
        (⟨fun _ _ => c, fun _ _ => false⟩ : Buf2 h w) =
      .error "NameError: name ndimage is not defined") ∧
    (MixedLayerDepthGradient.call sqrtF atan2degF "numpy" false
        (⟨fun _ _ => c, fun _ _ => false⟩ : Buf2 h w) =
      .ok ⟨[fun _ _ => 0], fun _ _ => false⟩) := by
  set bb : Buf2 h w := ⟨fun _ _ => c, fun _ _ => false⟩ with hbb
  have hnm : MixedLayerDepthGradient.nodataMask2 bb = fun _ _ => false := by
    funext i j
    unfold MixedLayerDepthGradient.nodataMask2
    have : anyMasked2 bb = false := by simp [anyMasked2, hbb]
    rw [this]
    rfl
  have hfill : MixedLayerDepthGradient.dataFilled bb = fun _ _ => c := by
    funext i j
    unfold MixedLayerDepthGradient.dataFilled
    rw [hnm]
    rfl
  constructor
  · rfl
  · show (if ("numpy" : String) = "sobel" then _ else _) = _
    rw [if_neg (by decide), if_pos ⟨hh, hw⟩, if_neg Bool.false_ne_true]
    rw [hnm]
    have hmag : (fun (i : Fin h) (j : Fin w) =>
        sqrtF (MixedLayerDepthGradient.gradAxis1 (MixedLayerDepthGradient.dataFilled bb) i j ^ 2 +
          MixedLayerDepthGradient.gradAxis0 (MixedLayerDepthGradient.dataFilled bb) i j ^ 2))
        = fun _ _ => 0 := by
      funext i j
      rw [hfill, (gradAxis_const_zero c hh hw i j).1, (gradAxis_const_zero c hh hw i j).2]
      simpa using hsq
    rw [hmag]

/-- Witness for C2 at a concrete input: a 3×3 constant field valued 5 with
a concrete float model of `sqrt`. -/
theorem C2_gradient_flat_field_witness :
    ((fun _ : ℚ => (0 : ℚ)) 0 = 0 ∧ 2 ≤ 3) ∧
    (MixedLayerDepthGradient.call (fun _ => 0) (fun _ _ => 0) "sobel" false
        (⟨fun _ _ => 5, fun _ _ => false⟩ : Buf2 3 3) =
      .error "NameError: name ndimage is not defined") :=
  ⟨⟨rfl, by norm_num⟩,
   (C2_gradient_flat_field (fun _ => 0) (fun _ _ => 0) rfl 5 3 3
     (by norm_num) (by norm_num)).1⟩

/-- Embedding of `colors_per_segment` (src/services/colors.py lines 263-268): the base
count `num_colors // num_segments` plus one for the first
`num_colors % num_segments` segments. -/
def colorsPerSegment (numColors numSegments : ℕ) (s : ℕ) : ℕ :=
  numColors / numSegments + (if s < numColors % numSegments then 1 else 0)

/-- One entry of a segment of `create_continuous_colormap`
(src/services/colors.py lines 278-288): `t = i / (k - 1)` when the segment
has `k > 1` entries else `0`, per channel `int(c1 * (1 - t) + c2 * t)`
(Python `int`, truncation), alpha `255`. -/
def segEntry (c1 c2 : ℤ × ℤ × ℤ) (k i : ℕ) : ℤ × ℤ × ℤ × ℤ :=
  let t : ℚ := if 1 < k then (i : ℚ) / ((k : ℚ) - 1) else 0
  (pyInt ((c1.1 : ℚ) * (1 - t) + (c2.1 : ℚ) * t),
   pyInt ((c1.2.1 : ℚ) * (1 - t) + (c2.2.1 : ℚ) * t),
   pyInt ((c1.2.2 : ℚ) * (1 - t) + (c2.2.2 : ℚ) * t),
   255)

/-- Embedding of `create_continuous_colormap` (src/services/colors.py lines 255-291),
with the hex stop list already decoded to RGB triples (`hex_to_rgb`, line
258).  The Python function fills a dict keyed by the running `color_index`
`0..N-1` in order; the dict is modelled as the list of its entries in key
order. -/
def createContinuousColormap (rgbColors : List (ℤ × ℤ × ℤ)) (numColors : ℕ) :
    List (ℤ × ℤ × ℤ × ℤ) :=
  let numSegments := rgbColors.length - 1
  ((List.range numSegments).map (fun s =>
    (List.range (colorsPerSegment numColors numSegments s)).map
      (segEntry (rgbColors.getD s (0, 0, 0)) (rgbColors.getD (s + 1) (0, 0, 0))
        (colorsPerSegment numColors numSegments s)))).join

/-- Distributing `r ≤ n` extra units over the first `r` of `n` slots of
size `base` totals `n * base + r`. -/
theorem sum_base_indicator (base r : ℕ) :
    ∀ n : ℕ, r ≤ n →
      ((List.range n).map (fun s => base + if s < r then 1 else 0)).sum
        = n * base + r := by
  intro n
  induction n with
  | zero =>
    intro hr
    have : r = 0 := by omega
    subst this
    simp
  | succ n ih =>
    intro hr
    rw [List.range_succ, List.map_append, List.sum_append]
    simp only [List.map_cons, List.map_nil, List.sum_cons, List.sum_nil]
    by_cases hrn : r ≤ n
    · rw [ih hrn, if_neg (by omega)]
      rw [Nat.succ_mul]
      omega
    · have hr1 : r = n + 1 := by omega
      subst hr1
      have hcongr : ((List.range n).map (fun s => base + if s < n + 1 then 1 else 0))
          = (List.range n).map (fun _ => base + 1) := by
        apply List.map_congr_left
        intro s hs
        rw [if_pos (by have := List.mem_range.mp hs; omega)]
      rw [hcongr, List.map_const', List.sum_replicate, List.length_range,
        smul_eq_mul, if_pos (by omega), Nat.succ_mul]
      ring

/-- The apportioned segment lengths sum to exactly `numColors`. -/
theorem sum_colorsPerSegment (numColors n : ℕ) (hn : 0 < n) :
    ((List.range n).map (colorsPerSegment numColors n)).sum = numColors := by
  unfold colorsPerSegment
  rw [sum_base_indicator (numColors / n) (numColors % n) n
    (le_of_lt (Nat.mod_lt _ hn))]
  exact Nat.div_add_mod numColors n

/-- Indexing into a joined list of lists: position (sum of lengths of the
first `s` blocks) + `i` lands at entry `i` of block `s`. -/
theorem join_getD {α : Type} (d : α) :
    ∀ (L : List (List α)) (s i : ℕ), s < L.length →
      i < (L.getD s []).length →
      L.join.getD ((((L.take s).map List.length).sum) + i) d
        = (L.getD s []).getD i d := by
  intro L
  induction L with
  | nil => intro s i hs _; simp at hs
  | cons l L ih =>
    intro s i hs hi
    cases s with
    | zero =>
      simp only [List.getD, List.get?_cons_zero, Option.getD_some] at hi ⊢
      simp only [List.take_zero, List.map_nil, List.sum_nil, Nat.zero_add,
        List.join_cons]
      rw [List.get?_append hi]
    | succ s =>
      simp only [List.getD, List.get?_cons_succ] at hi ⊢
      simp only [List.take_succ_cons, List.map_cons, List.sum_cons,
        List.join_cons]
      rw [List.get?_append_right (by omega)]
      rw [show l.length + (List.map List.length (List.take s L)).sum + i - l.length
        = (List.map List.length (List.take s L)).sum + i from by omega]
      have hs' : s < L.length := by
        simp only [List.length_cons] at hs
        omega
      have := ih s i hs' (by simpa [List.getD] using hi)
      simpa [List.getD] using this

/-- C4 counterexample: the claim says each interpolated channel equals
`round(c1*(1-t) + c2*t)`.  The code applies Python `int()` (truncation).
For stops `[(0,0,0), (5,0,0)]` and `N = 4`, entry 1 has `t = 1/3` and red
channel `int(5/3) = 1`, while the claimed `round(5/3) = 2`. -/
theorem C4_counterexample :
    (createContinuousColormap [(0, 0, 0), (5, 0, 0)] 4).getD 1 (0, 0, 0, 0)
      = (1, 0, 0, 255) ∧
    roundNearest ((0 : ℚ) * (1 - 1/3) + (5 : ℚ) * (1/3)) = 2 ∧
    ((1 : ℤ), (0 : ℤ), (0 : ℤ), (255 : ℤ)) ≠ ((2 : ℤ), (0 : ℤ), (0 : ℤ), (255 : ℤ)) := by
  refine ⟨?_, ?_, by decide⟩
  · show ((List.range 1).map (fun s =>
      (List.range (colorsPerSegment 4 1 s)).map
        (segEntry (([(0, 0, 0), (5, 0, 0)] : List (ℤ × ℤ × ℤ)).getD s (0, 0, 0))
          (([(0, 0, 0), (5, 0, 0)] : List (ℤ × ℤ × ℤ)).getD (s + 1) (0, 0, 0))
          (colorsPerSegment 4 1 s)))).join.getD 1 (0, 0, 0, 0) = (1, 0, 0, 255)
    have hcps : colorsPerSegment 4 1 0 = 4 := by norm_num [colorsPerSegment]
    simp only [List.range_succ, List.range_zero, List.nil_append, List.map_cons,
      List.map_nil, List.join_cons, List.join_nil, List.append_nil, hcps]
    norm_num [List.range_succ, List.getD, segEntry, pyInt]
  · norm_num [roundNearest]

/-- C4 amended: `create_continuous_colormap` produces exactly `N` entries
keyed `0..N-1`, apportioned as `N / (num_stops - 1)` per segment with the
remainder on the earliest segments, and the entry at offset `i` of segment
`s` is the truncated (`int()`, not `round()`) channel blend
`int(c1*(1-t) + c2*t)` with `t = i/(k-1)` (0 for single-entry segments) and
alpha `255`. -/
theorem C4_continuous_colormap_layout (rgbColors : List (ℤ × ℤ × ℤ))
    (numColors : ℕ) (hlen : 2 ≤ rgbColors.length) :
    (createContinuousColormap rgbColors numColors).length = numColors ∧
    (∀ s i : ℕ, s < rgbColors.length - 1 →
      i < colorsPerSegment numColors (rgbColors.length - 1) s →
      (createContinuousColormap rgbColors numColors).getD
        (((List.range s).map (colorsPerSegment numColors (rgbColors.length - 1))).sum + i)
        (0, 0, 0, 0)
        = segEntry (rgbColors.getD s (0, 0, 0)) (rgbColors.getD (s + 1) (0, 0, 0))
            (colorsPerSegment numColors (rgbColors.length - 1) s) i) := by
  have hn : 0 < rgbColors.length - 1 := by omega
  constructor
  · unfold createContinuousColormap
    rw [List.length_join, List.map_map]
    have hcomp : (List.length ∘ fun s =>
        (List.range (colorsPerSegment numColors (rgbColors.length - 1) s)).map
          (segEntry (rgbColors.getD s (0, 0, 0)) (rgbColors.getD (s + 1) (0, 0, 0))
            (colorsPerSegment numColors (rgbColors.length - 1) s)))
        = colorsPerSegment numColors (rgbColors.length - 1) := by
      funext a
      simp [Function.comp, List.length_map, List.length_range]
    rw [hcomp, sum_colorsPerSegment _ _ hn]
  · intro s i hs hi
    unfold createContinuousColormap
    set n := rgbColors.length - 1 with hndef
    set f : ℕ → List (ℤ × ℤ × ℤ × ℤ) := fun s =>
      (List.range (colorsPerSegment numColors n s)).map
        (segEntry (rgbColors.getD s (0, 0, 0)) (rgbColors.getD (s + 1) (0, 0, 0))
          (colorsPerSegment numColors n s)) with hfdef
    have hgetD : ((List.range n).map f).getD s [] = f s := by
      simp [List.getD, List.getElem?_map, List.getElem?_range hs]
    have htake : ((((List.range n).map f).take s).map List.length)
        = (List.range s).map (colorsPerSegment numColors n) := by
      rw [← List.map_take, List.take_range, min_eq_left (le_of_lt hs), List.map_map]
      apply List.map_congr_left
      intro a _
      simp [hfdef, Function.comp, List.length_map, List.length_range]
    have hj := join_getD (0, 0, 0, 0) ((List.range n).map f) s i
      (by simpa using hs)
      (by rw [hgetD, hfdef]; simpa using hi)
    rw [htake, hgetD] at hj
    rw [hj, hfdef]
    simp [List.getD, List.getElem?_map, List.getElem?_range hi]

/-- Witness for C4 amended at a concrete input. -/
theorem C4_continuous_colormap_layout_witness :
    2 ≤ ([(0, 0, 0), (5, 0, 0)] : List (ℤ × ℤ × ℤ)).length ∧
    (createContinuousColormap [(0, 0, 0), (5, 0, 0)] 4).length = 4 :=
  ⟨by norm_num,
   (C4_continuous_colormap_layout [(0, 0, 0), (5, 0, 0)] 4 (by norm_num)).1⟩

/-- The exact colormap index of a stop (src/services/colors.py lines
326-329): `int(((log_stop - log_min) / log_range) * (num_colors - 1))`
clamped into `[0, num_colors - 1]`. -/
def stopIdx (numColors : ℕ) (logMin logRange : ℚ) (logStop : ℚ) : ℤ :=
  max 0 (min ((numColors : ℤ) - 1)
    (pyInt (((logStop - logMin) / logRange) * ((numColors : ℚ) - 1))))

/-- The bracketing loop of `create_log10_positioned_colormap`
(src/services/colors.py lines 344-360): first adjacent stop pair with
`log1 <= log_val <= log2` wins; `t = 0` when the pair is degenerate,
channels are `int(rgb1 * (1 - t) + rgb2 * t)`. -/
def findBracket : List (ℚ × (ℤ × ℤ × ℤ)) → ℚ → Option (ℤ × ℤ × ℤ)
  | (l1, c1) :: (l2, c2) :: rest, lv =>
    if l1 ≤ lv ∧ lv ≤ l2 then
      let t : ℚ := if l2 = l1 then 0 else (lv - l1) / (l2 - l1)
      some (pyInt ((c1.1 : ℚ) * (1 - t) + (c2.1 : ℚ) * t),
            pyInt ((c1.2.1 : ℚ) * (1 - t) + (c2.2.1 : ℚ) * t),
            pyInt ((c1.2.2 : ℚ) * (1 - t) + (c2.2.2 : ℚ) * t))
    else findBracket ((l2, c2) :: rest) lv
  | _, _ => none

/-- Embedding of `create_log10_positioned_colormap` (src/services/colors.py lines
293-368), with the hex colors already decoded to RGB triples (line 312).
For each stop, `log_stop = math.log10(val) if val > 0 else log_min` (line
325, abstract float `logF`); its exact clamped index is recorded in the
`stop_indices` dict (last stop wins, modelled by searching the reversed
list).  Each index `0..num_colors-1` is then filled: exact stop indices get
the stop color; otherwise the index's log value is bracketed and
interpolated; indices outside the stop range fall back to the first or last
stop color (lines 361-366).  Every branch appends alpha `255`. -/
def createLog10PositionedColormap (logF : ℚ → ℚ)
    (stops : List (ℚ × (ℤ × ℤ × ℤ))) (numColors : ℕ) (logMin logMax : ℚ) :
    List (ℤ × ℤ × ℤ × ℤ) :=
  let logRange : ℚ := logMax - logMin
  let logStops : List (ℚ × (ℤ × ℤ × ℤ)) :=
    stops.map (fun s => (if 0 < s.1 then logF s.1 else logMin, s.2))
  let stopIndices : List (ℤ × (ℤ × ℤ × ℤ)) :=
    logStops.map (fun s => (stopIdx numColors logMin logRange s.1, s.2))
  let lookupStop : ℤ → Option (ℤ × ℤ × ℤ) := fun idx =>
    (stopIndices.reverse.find? (fun e => e.1 == idx)).map (fun e => e.2)
  (List.range numColors).map (fun idx =>
    match lookupStop (idx : ℤ) with
    | some rgb => (rgb.1, rgb.2.1, rgb.2.2, 255)
    | none =>
      let logVal : ℚ := logMin + ((idx : ℚ) / ((numColors : ℚ) - 1)) * logRange
      match findBracket logStops logVal with
      | some c => (c.1, c.2.1, c.2.2, 255)
      | none =>
        if logVal < (logStops.headD (0, (0, 0, 0))).1
        then ((logStops.headD (0, (0, 0, 0))).2.1,
              (logStops.headD (0, (0, 0, 0))).2.2.1,
              (logStops.headD (0, (0, 0, 0))).2.2.2, 255)
        else ((logStops.getLastD (0, (0, 0, 0))).2.1,
              (logStops.getLastD (0, (0, 0, 0))).2.2.1,
              (logStops.getLastD (0, (0, 0, 0))).2.2.2, 255))

/-- C9: every entry of every table produced by either builder is a 4-tuple
whose alpha component is exactly 255 — the builders never emit a partially
or fully transparent entry; transparency can only come from the mask.
Stated both for list membership and for positional access with an opaque
default. -/
theorem C9_alpha_always_255 :
    (∀ (rgbColors : List (ℤ × ℤ × ℤ)) (numColors : ℕ),
      2 ≤ rgbColors.length →
      ∀ e ∈ createContinuousColormap rgbColors numColors, e.2.2.2 = 255) ∧
    (∀ (logF : ℚ → ℚ) (stops : List (ℚ × (ℤ × ℤ × ℤ))) (numColors : ℕ)
      (logMin logMax : ℚ),
      2 ≤ stops.length → 1 ≤ numColors → logMin < logMax →
      ∀ e ∈ createLog10PositionedColormap logF stops numColors logMin logMax,
        e.2.2.2 = 255) ∧
    (∀ (rgbColors : List (ℤ × ℤ × ℤ)) (numColors : ℕ),
      2 ≤ rgbColors.length → ∀ idx : ℕ,
      ((createContinuousColormap rgbColors numColors).getD idx (0, 0, 0, 255)).2.2.2
        = 255) ∧
    (∀ (logF : ℚ → ℚ) (stops : List (ℚ × (ℤ × ℤ × ℤ))) (numColors : ℕ)
      (logMin logMax : ℚ),
      2 ≤ stops.length → 1 ≤ numColors → logMin < logMax → ∀ idx : ℕ,
      ((createLog10PositionedColormap logF stops numColors logMin logMax).getD
        idx (0, 0, 0, 255)).2.2.2 = 255) := by
  have hcont : ∀ (rgbColors : List (ℤ × ℤ × ℤ)) (numColors : ℕ),
      ∀ e ∈ createContinuousColormap rgbColors numColors, e.2.2.2 = 255 := by
    intro rgbColors numColors e he
    unfold createContinuousColormap at he
    rw [List.mem_join] at he
    obtain ⟨blk, hblk, he⟩ := he
    rw [List.mem_map] at hblk
    obtain ⟨s, _, rfl⟩ := hblk
    rw [List.mem_map] at he
    obtain ⟨i, _, rfl⟩ := he
    rfl
  have hlog : ∀ (logF : ℚ → ℚ) (stops : List (ℚ × (ℤ × ℤ × ℤ))) (numColors : ℕ)
      (logMin logMax : ℚ),
      ∀ e ∈ createLog10PositionedColormap logF stops numColors logMin logMax,
        e.2.2.2 = 255 := by
    intro logF stops numColors logMin logMax e he
    unfold createLog10PositionedColormap at he
    rw [List.mem_map] at he
    obtain ⟨idx, _, rfl⟩ := he
    cases hlk : (((stops.map (fun s => (if 0 < s.1 then logF s.1 else logMin, s.2))).map
        (fun s => (stopIdx numColors logMin (logMax - logMin) s.1, s.2))).reverse.find?
        (fun e => e.1 == (idx : ℤ))).map (fun e => e.2) with
    | some rgb => simp only [hlk]
    | none =>
      simp only [hlk]
      cases hfb : findBracket
          (stops.map (fun s => (if 0 < s.1 then logF s.1 else logMin, s.2)))
          (logMin + ((idx : ℚ) / ((numColors : ℚ) - 1)) * (logMax - logMin)) with
      | some c => simp only [hfb]
      | none =>
        simp only [hfb]
        split_ifs <;> rfl
  refine ⟨fun r n _ => hcont r n, fun lf st n lmin lmax _ _ _ => hlog lf st n lmin lmax,
    ?_, ?_⟩
  · intro rgbColors numColors _ idx
    rcases lt_or_le idx (createContinuousColormap rgbColors numColors).length with h | h
    · rw [List.getD_eq_getElem _ _ h]
      exact hcont rgbColors numColors _ (List.getElem_mem h)
    · rw [List.getD_eq_default _ _ h]
  · intro logF stops numColors logMin logMax _ _ _ idx
    rcases lt_or_le idx
      (createLog10PositionedColormap logF stops numColors logMin logMax).length with h | h
    · rw [List.getD_eq_getElem _ _ h]
      exact hlog logF stops numColors logMin logMax _ (List.getElem_mem h)
    · rw [List.getD_eq_default _ _ h]

/-- Witness for C9 at concrete inputs. -/
theorem C9_alpha_always_255_witness :
    (2 ≤ ([(0, 0, 0), (255, 255, 255)] : List (ℤ × ℤ × ℤ)).length ∧ 1 ≤ 4 ∧ (0 : ℚ) < 1) ∧
    ((createContinuousColormap [(0, 0, 0), (255, 255, 255)] 4).getD 0
      (0, 0, 0, 255)).2.2.2 = 255 ∧
    ((createLog10PositionedColormap (fun q => q)
      [(1/100, (0, 0, 0)), (8, (255, 255, 255))] 4 0 1).getD 0
      (0, 0, 0, 255)).2.2.2 = 255 :=
  ⟨⟨by norm_num, by norm_num, by norm_num⟩,
   C9_alpha_always_255.2.2.1 [(0, 0, 0), (255, 255, 255)] 4 (by norm_num) 0,
   C9_alpha_always_255.2.2.2 (fun q => q) [(1/100, (0, 0, 0)), (8, (255, 255, 255))]
     4 0 1 (by norm_num) (by norm_num) (by norm_num) 0⟩

/-- The `Buf2` analogue of `anyMasked_false`. -/
theorem anyMasked2_false {h w : ℕ} (b : Buf2 h w)
    (hm : anyMasked2 b = false) (i : Fin h) (j : Fin w) : b.mask i j = false := by
  by_contra hc
  have hij : b.mask i j = true := by
    cases hx : b.mask i j with
    | false => exact absurd hx hc
    | true => rfl
  have : anyMasked2 b = true := by
    unfold anyMasked2
    exact decide_eq_true ⟨i, j, hij⟩
  rw [hm] at this
  exact Bool.false_ne_true this

/-- The gradient transform's nodata mask equals the input mask. -/
theorem nodataMask2_eq {h w : ℕ} (b : Buf2 h w) (i : Fin h) (j : Fin w) :
    MixedLayerDepthGradient.nodataMask2 b i j = b.mask i j := by
  unfold MixedLayerDepthGradient.nodataMask2
  cases ham : anyMasked2 b with
  | true => rfl
  | false => simp [anyMasked2_false b ham i j]

/-- C7: every transform in the catalogue except the RangeMask
(`OceanMask`) propagates the input mask unchanged (broadcast to all output
bands for the RGB-synthesizing transforms), for every configuration in the
catalogue's parameter domain (`eps > 0` for log transforms, `max ≥ 0` and
`gamma > 0` for the clamp-based ones); no transform ever clears a mask bit.
The gradient transform is covered on its `numpy` method (its `sobel` branch
raises `NameError` and returns no buffer at all, see C2): whenever the grid
is at least 2×2 the call succeeds and the output mask equals the input
mask. -/
theorem C7_mask_propagation :
    (∀ (P : Type) (log10F : ℚ → FV) (eps : ℚ) (b : Buf P), 0 < eps →
      ∀ p, (Log10.call log10F eps b).2 p = b.mask p) ∧
    (∀ (P : Type) (log10F : ℚ → FV) (eps maxValue : ℚ) (b : Buf P),
      0 < eps → 0 < maxValue →
      ∀ p, (Log10Chlorophyll.call log10F eps maxValue b).2 p = b.mask p) ∧
    (∀ (P : Type) (sqrtF : ℚ → ℚ) (maxValue : ℚ) (b : Buf P), 0 ≤ maxValue →
      ∀ p, (SqrtChlorophyll.call sqrtF maxValue b).mask p = b.mask p) ∧
    (∀ (P : Type) (powF : ℚ → ℚ → ℚ) (maxValue gamma : ℚ) (b : Buf P),
      0 ≤ maxValue → 0 < gamma →
      ∀ p, (GammaChlorophyll.call powF maxValue gamma b).mask p = b.mask p) ∧
    (∀ (P : Type) (maxValue : ℚ) (b : Buf P),
      ∀ p, (LinearChlorophyll.call maxValue b).mask p = b.mask p) ∧
    (∀ (P : Type) [Fintype P] (b : Buf P),
      ∀ p, (ChlorophyllRangeMapper.call b).mask p = b.mask p) ∧
    (∀ (P : Type) [Fintype P] (b : Buf P),
      ∀ p, (ChlorophyllSmoothMapper.call b).mask p = b.mask p) ∧
    (∀ (P : Type) [Fintype P] (log10q : ℚ → ℚ) (b : Buf P),
      ∀ p, (ChlorophyllLog10RGB.call log10q b).mask p = b.mask p) ∧
    (∀ (h w : ℕ) (sqrtF : ℚ → ℚ) (atan2degF : ℚ → ℚ → ℚ) (od : Bool)
      (b : Buf2 h w), 2 ≤ h → 2 ≤ w →
      ∃ out, MixedLayerDepthGradient.call sqrtF atan2degF "numpy" od b = .ok out ∧
        ∀ i j, out.mask i j = b.mask i j) := by
  have hmaskOr : ∀ (P : Type) [Fintype P] (b : Buf P) (p : P),
      ((if anyMasked b then b.mask p else false) || b.mask p) = b.mask p := by
    intro P _ b p
    cases anyMasked b with
    | true => simp
    | false => simp
  refine ⟨?_, ?_, ?_, ?_, ?_, ?_, ?_, ?_, ?_⟩
  · intro P log10F eps b heps p
    show (b.mask p || decide (max (b.data p) eps ≤ 0)) = b.mask p
    have : ¬(max (b.data p) eps ≤ 0) :=
      not_le.mpr (lt_of_lt_of_le heps (le_max_right _ _))
    simp [this]
  · intro P log10F eps maxValue b heps hmax p
    show (b.mask p || decide (min (max (b.data p) eps) maxValue ≤ 0)) = b.mask p
    have : ¬(min (max (b.data p) eps) maxValue ≤ 0) :=
      not_le.mpr (lt_min (lt_of_lt_of_le heps (le_max_right _ _)) hmax)
    simp [this]
  · intro P sqrtF maxValue b hmax p
    show (b.mask p || decide (min (max (b.data p) 0) maxValue < 0)) = b.mask p
    have : ¬(min (max (b.data p) 0) maxValue < 0) :=
      not_lt.mpr (le_min (le_max_right _ _) hmax)
    simp [this]
  · intro P powF maxValue gamma b hmax hgamma p
    show (b.mask p || decide (min (max (b.data p) 0) maxValue < 0 ∨
      (min (max (b.data p) 0) maxValue = 0 ∧ gamma < 0))) = b.mask p
    have h1 : ¬(min (max (b.data p) 0) maxValue < 0) :=
      not_lt.mpr (le_min (le_max_right _ _) hmax)
    have h2 : ¬(gamma < 0) := not_lt.mpr (le_of_lt hgamma)
    simp [h1, h2]
  · intro P maxValue b p
    rfl
  · intro P _ b p
    exact hmaskOr P b p
  · intro P _ b p
    exact hmaskOr P b p
  · intro P _ log10q b p
    show (if anyMasked b then b.mask p else false) = b.mask p
    cases ham : anyMasked b with
    | true => rfl
    | false => simp [anyMasked_false b ham p]
  · intro h w sqrtF atan2degF od b hh hw
    cases od with
    | false =>
      refine ⟨⟨[fun i j => sqrtF
          (MixedLayerDepthGradient.gradAxis1 (MixedLayerDepthGradient.dataFilled b) i j ^ 2 +
           MixedLayerDepthGradient.gradAxis0 (MixedLayerDepthGradient.dataFilled b) i j ^ 2)],
          MixedLayerDepthGradient.nodataMask2 b⟩, ?_, ?_⟩
      · show (if ("numpy" : String) = "sobel" then _ else _) = _
        rw [if_neg (by decide), if_pos ⟨hh, hw⟩, if_neg Bool.false_ne_true]
      · intro i j
        exact nodataMask2_eq b i j
    | true =>
      refine ⟨⟨[fun i j => sqrtF
          (MixedLayerDepthGradient.gradAxis1 (MixedLayerDepthGradient.dataFilled b) i j ^ 2 +
           MixedLayerDepthGradient.gradAxis0 (MixedLayerDepthGradient.dataFilled b) i j ^ 2),
          fun i j =>
            if atan2degF (MixedLayerDepthGradient.gradAxis0 (MixedLayerDepthGradient.dataFilled b) i j)
                (MixedLayerDepthGradient.gradAxis1 (MixedLayerDepthGradient.dataFilled b) i j) < 0
            then atan2degF (MixedLayerDepthGradient.gradAxis0 (MixedLayerDepthGradient.dataFilled b) i j)
                (MixedLayerDepthGradient.gradAxis1 (MixedLayerDepthGradient.dataFilled b) i j) + 360
            else atan2degF (MixedLayerDepthGradient.gradAxis0 (MixedLayerDepthGradient.dataFilled b) i j)
                (MixedLayerDepthGradient.gradAxis1 (MixedLayerDepthGradient.dataFilled b) i j)],
          MixedLayerDepthGradient.nodataMask2 b⟩, ?_, ?_⟩
      · show (if ("numpy" : String) = "sobel" then _ else _) = _
        rw [if_neg (by decide), if_pos ⟨hh, hw⟩, if_pos rfl]
      · intro i j
        exact nodataMask2_eq b i j

/-- Witness for C7 at concrete inputs: one-pixel buffers with a set mask
bit, and a 3×3 grid for the gradient. -/
theorem C7_mask_propagation_witness :
    ((0 : ℚ) < 1 ∧ (0 : ℚ) < 2 ∧ (0 : ℚ) ≤ 2 ∧ (0 : ℚ) < 3/5 ∧ 2 ≤ 3) ∧
    (Log10.call (fun _ => FV.fin 0) 1
      (⟨fun _ => 7, fun _ => true⟩ : Buf (Fin 1))).2 0 = true ∧
    (SqrtChlorophyll.call (fun q => q) 2
      (⟨fun _ => 7, fun _ => true⟩ : Buf (Fin 1))).mask 0 = true ∧
    (ChlorophyllRangeMapper.call
      (⟨fun _ => 7, fun _ => true⟩ : Buf (Fin 1))).mask 0 = true ∧
    (∃ out, MixedLayerDepthGradient.call (fun q => q) (fun _ _ => 0) "numpy" false
        (⟨fun _ _ => 5, fun _ _ => true⟩ : Buf2 3 3) = .ok out ∧
      ∀ i j, out.mask i j = (⟨fun _ _ => 5, fun _ _ => true⟩ : Buf2 3 3).mask i j) :=
  ⟨⟨by norm_num, by norm_num, by norm_num, by norm_num, by norm_num⟩,
   C7_mask_propagation.1 (Fin 1) (fun _ => FV.fin 0) 1
     (⟨fun _ => 7, fun _ => true⟩ : Buf (Fin 1)) (by norm_num) 0,
   C7_mask_propagation.2.2.1 (Fin 1) (fun q => q) 2
     (⟨fun _ => 7, fun _ => true⟩ : Buf (Fin 1)) (by norm_num) 0,
   C7_mask_propagation.2.2.2.2.2.1 (Fin 1)
     (⟨fun _ => 7, fun _ => true⟩ : Buf (Fin 1)) 0,
   C7_mask_propagation.2.2.2.2.2.2.2.2 3 3 (fun q => q) (fun _ _ => 0) false
     (⟨fun _ _ => 5, fun _ _ => true⟩ : Buf2 3 3) (by norm_num) (by norm_num)⟩

/-- Witness for C6 at a concrete input: a one-pixel buffer with a set mask
bit keeps its data and its mask bit through `OceanMask`. -/
theorem C6_oceanMask_adds_only_mask_witness :
    ((⟨fun _ => 7, fun _ => true⟩ : Buf (Fin 1)).mask 0 = true) ∧
    (OceanMask.call 0 10 (⟨fun _ => 7, fun _ => true⟩ : Buf (Fin 1))).mask 0 = true ∧
    (OceanMask.call 0 10 (⟨fun _ => 7, fun _ => true⟩ : Buf (Fin 1))).data 0 = 7 :=
  ⟨rfl,
   (C6_oceanMask_adds_only_mask 0 10
     (⟨fun _ => 7, fun _ => true⟩ : Buf (Fin 1))).2.2 0 rfl,
   (C6_oceanMask_adds_only_mask 0 10
     (⟨fun _ => 7, fun _ => true⟩ : Buf (Fin 1))).1 0⟩
